import Mathlib

/-!
Shallow embedding of the staged-features proof of concept (`src/lib.rs`):
a fixed-capacity, epoch-gated, double-buffered feature-activation store,
together with the two simulated instruction entry points.

Modelling conventions:
* the `u64` epoch numbers are `Nat`; where the source performs `u64`
  arithmetic that can wrap (`current_epoch + 1` in `maybe_update`) the
  embedding reduces modulo `2 ^ 64` explicitly, matching Rust release-mode
  wrapping semantics;
* a `Pubkey` (an opaque 32-byte value) is `Fin (2 ^ 256)`, with the
  all-zero value as the empty sentinel (`Pubkey::default()`);
* the fixed-size array `[Pubkey; 8]` is a `List Pubkey` of length 8
  (genesis creates it as `List.replicate 8 pubkeyDefault`, and all
  operations preserve the length);
* `&mut self` methods become functions returning the new record (paired
  with the `Result` value where the source returns one).
-/

set_option maxRecDepth 8192

/-- Size of the `u64` value space: `u64` arithmetic wraps modulo this. -/
def U64_MOD : Nat := 2 ^ 64

/-- An opaque 32-byte feature identifier (`Pubkey` in the source). -/
abbrev Pubkey := Fin (2 ^ 256)

/-- The all-zero empty sentinel, `Pubkey::default()`. -/
def pubkeyDefault : Pubkey := ⟨0, by norm_num⟩

/-- The staged-features record (`StagedFeatures` in the source): two
generations of an 8-slot feature set with their epoch numbers. -/
structure StagedFeatures where
  current_epoch : Nat
  current_features : List Pubkey
  next_epoch : Nat
  next_features : List Pubkey
deriving DecidableEq, Repr

/-- The error type of `solana_program` (`ProgramError`), restricted to the
constructors relevant here; the source uses only `InvalidArgument`. -/
inductive ProgramError where
  | Custom : Nat → ProgramError
  | InvalidArgument : ProgramError
  | InvalidInstructionData : ProgramError
  | InvalidAccountData : ProgramError
  | AccountDataTooSmall : ProgramError
deriving DecidableEq, Repr

/-- `StagedFeatures::maybe_update`: if the externally observed epoch has
reached `next_epoch`, promote the next generation to current, advance
`next_epoch` to the observed epoch plus one (`u64` wrapping addition),
and reset `next_features` to all-empty; otherwise do nothing. -/
def maybe_update (s : StagedFeatures) (current_epoch : Nat) : StagedFeatures :=
  if s.next_epoch ≤ current_epoch then
    { current_epoch := s.next_epoch
      current_features := s.next_features
      next_epoch := (current_epoch + 1) % U64_MOD
      next_features := List.replicate 8 pubkeyDefault }
  else s

/-- The slot scan of `StagedFeatures::stage_feature`: walk the slots in
order; at the first slot holding the empty sentinel, write `feature_id`
there and stop (`some` of the updated slots); if no slot is empty, fail
(`none`). This is the `for feature in self.next_features.iter_mut()`
loop of the source. -/
def writeFirstEmpty : List Pubkey → Pubkey → Option (List Pubkey)
  | [], _ => none
  | f :: rest, feature_id =>
    if f = pubkeyDefault then some (feature_id :: rest)
    else (writeFirstEmpty rest feature_id).map (fun rest2 => f :: rest2)

/-- `StagedFeatures::stage_feature`: reject a `target_epoch` different
from `next_epoch` with `ProgramError::InvalidArgument`; otherwise write
`feature_id` into the first empty slot of `next_features` and succeed, or
fail with `ProgramError::InvalidArgument` when every slot is occupied.
Returns the `Result` together with the (possibly updated) record. -/
def stage_feature (s : StagedFeatures) (target_epoch : Nat) (feature_id : Pubkey) :
    Except ProgramError Unit × StagedFeatures :=
  if target_epoch ≠ s.next_epoch then
    (Except.error ProgramError.InvalidArgument, s)
  else
    match writeFirstEmpty s.next_features feature_id with
    | some slots => (Except.ok (), { s with next_features := slots })
    | none => (Except.error ProgramError.InvalidArgument, s)

deriving instance DecidableEq for Except

/-- `SimulatedProgramContext`: the clock sysvar epoch and the staged
features PDA. -/
structure SimulatedProgramContext where
  clock_sysvar_epoch : Nat
  staged_features_pda : StagedFeatures
deriving DecidableEq, Repr

/-- `simulate_stage_feature_instruction`: roll the PDA forward for the
clock epoch, then stage the feature, propagating any error (the rollover
mutation persists on the error path, as with `?` after `&mut` in the
source). -/
def simulate_stage_feature_instruction (ctx : SimulatedProgramContext)
    (target_epoch : Nat) (feature_id : Pubkey) :
    Except ProgramError Unit × SimulatedProgramContext :=
  let pda := maybe_update ctx.staged_features_pda ctx.clock_sysvar_epoch
  match stage_feature pda target_epoch feature_id with
  | (Except.ok _, pda2) =>
    (Except.ok (), { ctx with staged_features_pda := pda2 })
  | (Except.error e, pda2) =>
    (Except.error e, { ctx with staged_features_pda := pda2 })

/-- `simulate_signal_support_instruction`: roll the PDA forward for the
clock epoch; the signal-support logic itself is a stub, and the bitmask
is unused. Always succeeds. -/
def simulate_signal_support_instruction (ctx : SimulatedProgramContext)
    (_bitmask : Nat) : Except ProgramError Unit × SimulatedProgramContext :=
  let pda := maybe_update ctx.staged_features_pda ctx.clock_sysvar_epoch
  (Except.ok (), { ctx with staged_features_pda := pda })

/-- The genesis record: `current_epoch = 0`, `next_epoch = 1`, both
feature sets all-empty (as built in the source's test). -/
def genesis : StagedFeatures :=
  { current_epoch := 0
    current_features := List.replicate 8 pubkeyDefault
    next_epoch := 1
    next_features := List.replicate 8 pubkeyDefault }

/-- Whether some slot of a feature set holds the empty sentinel. -/
def hasEmpty (l : List Pubkey) : Bool :=
  l.any fun f => decide (f = pubkeyDefault)

/-- Number of slots of a feature set holding the empty sentinel. -/
def countEmpty (l : List Pubkey) : Nat :=
  l.countP fun f => decide (f = pubkeyDefault)

/-- Run a sequence of `stage_feature` calls, all against the same target
epoch, stopping at the first failure; returns whether every call
succeeded, together with the final record. -/
def stageMany (s : StagedFeatures) (target_epoch : Nat) :
    List Pubkey → Bool × StagedFeatures
  | [] => (true, s)
  | feature_id :: rest =>
    match stage_feature s target_epoch feature_id with
    | (Except.ok _, s2) => stageMany s2 target_epoch rest
    | (Except.error _, s2) => (false, s2)

/-- Records reachable from genesis by any sequence of `maybe_update`,
`stage_feature` and `signal_support` calls, with every epoch argument in
the `u64` domain. -/
inductive Reachable : StagedFeatures → Prop where
  | init : Reachable genesis
  | step_update {s : StagedFeatures} (w : Nat) :
      Reachable s → w < U64_MOD → Reachable (maybe_update s w)
  | step_stage {s : StagedFeatures} (t : Nat) (id : Pubkey) :
      Reachable s → Reachable (stage_feature s t id).2
  | step_signal {s : StagedFeatures} (w b : Nat) :
      Reachable s → w < U64_MOD →
      Reachable (simulate_signal_support_instruction ⟨w, s⟩ b).2.staged_features_pda

/-- Records reachable from genesis as in `Reachable`, but with every
epoch argument of a rollover strictly below `u64::MAX`, so that the
`next_epoch` advance never wraps. -/
inductive ReachableB : StagedFeatures → Prop where
  | init : ReachableB genesis
  | step_update {s : StagedFeatures} (w : Nat) :
      ReachableB s → w + 1 < U64_MOD → ReachableB (maybe_update s w)
  | step_stage {s : StagedFeatures} (t : Nat) (id : Pubkey) :
      ReachableB s → ReachableB (stage_feature s t id).2
  | step_signal {s : StagedFeatures} (w b : Nat) :
      ReachableB s → w + 1 < U64_MOD →
      ReachableB (simulate_signal_support_instruction ⟨w, s⟩ b).2.staged_features_pda

/-- A concrete non-sentinel feature identifier, for witnesses. -/
def pk1 : Pubkey := ⟨1, by norm_num⟩

/-- A second concrete non-sentinel feature identifier, for witnesses. -/
def pk2 : Pubkey := ⟨2, by norm_num⟩

/-- A store whose next generation is completely full, for concrete
counterexamples. -/
def fullStore : StagedFeatures :=
  { current_epoch := 0
    current_features := List.replicate 8 pubkeyDefault
    next_epoch := 1
    next_features := List.replicate 8 pk1 }

/-- The slot scan fails exactly when no slot holds the empty sentinel. -/
theorem writeFirstEmpty_none_iff (l : List Pubkey) (id : Pubkey) :
    writeFirstEmpty l id = none ↔ hasEmpty l = false := by
  induction l with
  | nil => simp [writeFirstEmpty, hasEmpty]
  | cons f rest ih =>
    by_cases hf : f = pubkeyDefault
    · simp [writeFirstEmpty, hasEmpty, hf]
    · simp only [writeFirstEmpty, if_neg hf, Option.map_eq_none', hasEmpty, List.any_cons,
        decide_eq_false hf, Bool.false_or]
      exact ih

/-- The slot scan succeeds on any feature set with an empty slot. -/
theorem writeFirstEmpty_some_of_hasEmpty (l : List Pubkey) (id : Pubkey)
    (h : hasEmpty l = true) : ∃ l2, writeFirstEmpty l id = some l2 := by
  cases hw : writeFirstEmpty l id with
  | none =>
    rw [writeFirstEmpty_none_iff l id] at hw
    rw [hw] at h
    exact Bool.noConfusion h
  | some l2 => exact ⟨l2, rfl⟩

/-- A successful slot scan implies some slot held the empty sentinel. -/
theorem hasEmpty_of_writeFirstEmpty_some (l : List Pubkey) (id : Pubkey)
    (l2 : List Pubkey) (h : writeFirstEmpty l id = some l2) : hasEmpty l = true := by
  cases hE : hasEmpty l with
  | false =>
    rw [(writeFirstEmpty_none_iff l id).mpr hE] at h
    exact Option.noConfusion h
  | true => rfl

/-- Characterization of a successful slot scan: the identifier is written
at the first index holding the sentinel, by `List.set`, with all earlier
slots non-empty. -/
theorem writeFirstEmpty_spec (l : List Pubkey) (id : Pubkey) (l2 : List Pubkey)
    (h : writeFirstEmpty l id = some l2) :
    ∃ i, i < l.length ∧ l[i]? = some pubkeyDefault ∧
      (∀ j, j < i → l[j]? ≠ some pubkeyDefault) ∧ l2 = l.set i id := by
  induction l generalizing l2 with
  | nil => exact Option.noConfusion h
  | cons f rest ih =>
    by_cases hf : f = pubkeyDefault
    · rw [writeFirstEmpty, if_pos hf] at h
      cases h
      refine ⟨0, by simp, by simp [hf], ?_, by simp⟩
      intro j hj
      exact absurd hj (Nat.not_lt_zero j)
    · rw [writeFirstEmpty, if_neg hf] at h
      rcases Option.map_eq_some'.mp h with ⟨rest2, hr, hl2⟩
      rcases ih rest2 hr with ⟨i, hi, hget, hbefore, hset⟩
      refine ⟨i + 1, by simpa using hi, by simpa using hget, ?_, ?_⟩
      · intro j hj
        cases j with
        | zero => simp [hf]
        | succ j => simpa using hbefore j (by omega)
      · rw [← hl2, hset]
        simp

/-- A successful slot scan with a non-sentinel identifier reduces the
number of empty slots by exactly one. -/
theorem writeFirstEmpty_countEmpty (l : List Pubkey) (id : Pubkey) (l2 : List Pubkey)
    (hid : id ≠ pubkeyDefault) (h : writeFirstEmpty l id = some l2) :
    countEmpty l2 + 1 = countEmpty l := by
  induction l generalizing l2 with
  | nil => exact Option.noConfusion h
  | cons f rest ih =>
    by_cases hf : f = pubkeyDefault
    · rw [writeFirstEmpty, if_pos hf] at h
      cases h
      simp [countEmpty, List.countP_cons, hf, hid]
    · rw [writeFirstEmpty, if_neg hf] at h
      rcases Option.map_eq_some'.mp h with ⟨rest2, hr, hl2⟩
      have hrec := ih rest2 hr
      rw [← hl2]
      simp only [countEmpty, List.countP_cons, decide_eq_false hf] at *
      omega

/-- A feature set has an empty slot exactly when its empty-slot count is
positive. -/
theorem hasEmpty_iff_countEmpty_pos (l : List Pubkey) :
    hasEmpty l = true ↔ 0 < countEmpty l := by
  rw [hasEmpty, countEmpty, List.any_eq_true, List.countP_pos_iff]

/-- A feature set with no empty slots (by count) has `hasEmpty = false`. -/
theorem hasEmpty_eq_false_of_countEmpty_zero (l : List Pubkey)
    (h : countEmpty l = 0) : hasEmpty l = false := by
  cases hE : hasEmpty l with
  | false => rfl
  | true =>
    have := (hasEmpty_iff_countEmpty_pos l).mp hE
    omega

/-- Writing the sentinel itself into the first empty slot leaves the
feature set unchanged. -/
theorem writeFirstEmpty_sentinel (l : List Pubkey) (h : hasEmpty l = true) :
    writeFirstEmpty l pubkeyDefault = some l := by
  induction l with
  | nil => exact Bool.noConfusion h
  | cons f rest ih =>
    by_cases hf : f = pubkeyDefault
    · rw [writeFirstEmpty, if_pos hf, hf]
    · rw [hasEmpty, List.any_cons, decide_eq_false hf, Bool.false_or] at h
      rw [writeFirstEmpty, if_neg hf, ih h]
      rfl

/-- Exhaustive case analysis of `stage_feature`: epoch mismatch (error,
no change), full set (error, no change), or success (first empty slot
written). -/
theorem stage_feature_eq (s : StagedFeatures) (t : Nat) (id : Pubkey) :
    (t ≠ s.next_epoch ∧
      stage_feature s t id = (Except.error ProgramError.InvalidArgument, s)) ∨
    (t = s.next_epoch ∧ hasEmpty s.next_features = false ∧
      stage_feature s t id = (Except.error ProgramError.InvalidArgument, s)) ∨
    (t = s.next_epoch ∧ ∃ slots, writeFirstEmpty s.next_features id = some slots ∧
      stage_feature s t id = (Except.ok (), { s with next_features := slots })) := by
  by_cases ht : t = s.next_epoch
  · cases hw : writeFirstEmpty s.next_features id with
    | none =>
      refine Or.inr (Or.inl ⟨ht, (writeFirstEmpty_none_iff _ _).mp hw, ?_⟩)
      simp [stage_feature, ht, hw]
    | some slots =>
      refine Or.inr (Or.inr ⟨ht, slots, rfl, ?_⟩)
      simp [stage_feature, ht, hw]
  · exact Or.inl ⟨ht, by simp [stage_feature, ht]⟩

/-- `stage_feature` never changes the current generation or the next
epoch number, in any of its branches. -/
theorem stage_feature_keeps_current (s : StagedFeatures) (t : Nat) (id : Pubkey) :
    (stage_feature s t id).2.current_epoch = s.current_epoch ∧
    (stage_feature s t id).2.current_features = s.current_features ∧
    (stage_feature s t id).2.next_epoch = s.next_epoch := by
  rcases stage_feature_eq s t id with ⟨_, heq⟩ | ⟨_, _, heq⟩ | ⟨_, _, _, heq⟩ <;>
    rw [heq] <;> exact ⟨rfl, rfl, rfl⟩

/-- Rollover branch of `maybe_update`, spelled out. -/
theorem maybe_update_spec_le (s : StagedFeatures) (w : Nat) (h : s.next_epoch ≤ w) :
    maybe_update s w =
      { current_epoch := s.next_epoch
        current_features := s.next_features
        next_epoch := (w + 1) % U64_MOD
        next_features := List.replicate 8 pubkeyDefault } := by
  rw [maybe_update, if_pos h]

/-- No-op branch of `maybe_update`, spelled out. -/
theorem maybe_update_spec_lt (s : StagedFeatures) (w : Nat) (h : w < s.next_epoch) :
    maybe_update s w = s := by
  rw [maybe_update, if_neg (by omega)]

/-- As long as the `next_epoch` advance does not wrap, `maybe_update`
preserves `current_epoch < next_epoch`. -/
theorem maybe_update_preserves_gap (s : StagedFeatures) (w : Nat)
    (hw : w + 1 < U64_MOD) (hinv : s.current_epoch < s.next_epoch) :
    (maybe_update s w).current_epoch < (maybe_update s w).next_epoch := by
  by_cases hc : s.next_epoch ≤ w
  · rw [maybe_update_spec_le s w hc]
    show s.next_epoch < (w + 1) % U64_MOD
    rw [Nat.mod_eq_of_lt hw]
    omega
  · rw [maybe_update_spec_lt s w (by omega)]
    exact hinv

/-- Running `stageMany` with enough empty slots for all the (non-sentinel)
identifiers succeeds, keeps `next_epoch`, and consumes exactly one empty
slot per identifier. -/
theorem stageMany_success (ids : List Pubkey) :
    ∀ s : StagedFeatures, (∀ id ∈ ids, id ≠ pubkeyDefault) →
      ids.length ≤ countEmpty s.next_features →
      (stageMany s s.next_epoch ids).1 = true ∧
      (stageMany s s.next_epoch ids).2.next_epoch = s.next_epoch ∧
      countEmpty (stageMany s s.next_epoch ids).2.next_features + ids.length =
        countEmpty s.next_features := by
  induction ids with
  | nil => exact fun s _ _ => ⟨rfl, rfl, by simp [stageMany]⟩
  | cons id rest ih =>
    intro s hids hlen
    have hid : id ≠ pubkeyDefault := hids id (List.mem_cons_self id rest)
    have hpos : 0 < countEmpty s.next_features := by
      simp only [List.length_cons] at hlen
      omega
    have hhas : hasEmpty s.next_features = true :=
      (hasEmpty_iff_countEmpty_pos _).mpr hpos
    rcases writeFirstEmpty_some_of_hasEmpty s.next_features id hhas with ⟨slots, hw⟩
    have hstep : stage_feature s s.next_epoch id =
        (Except.ok (), { s with next_features := slots }) := by
      simp [stage_feature, hw]
    have hcount := writeFirstEmpty_countEmpty s.next_features id slots hid hw
    have hrec := ih { s with next_features := slots }
      (fun i hi => hids i (List.mem_cons_of_mem id hi))
      (by simp only [List.length_cons] at hlen; simpa using (by omega : rest.length ≤ countEmpty slots))
    simp only [stageMany, hstep]
    refine ⟨by simpa using hrec.1, by simpa using hrec.2.1, ?_⟩
    have h1 := hrec.2.2
    simp only [List.length_cons] at *
    omega

example : countEmpty (List.replicate 8 pubkeyDefault) = 8 := by decide
example : maybe_update genesis 0 = genesis := by decide

/-- C1: for every store state and every wall epoch at least `next_epoch`,
`maybe_update` commits the rollover: `current_epoch` becomes the prior
`next_epoch`, `current_features` becomes the prior `next_features` (a
full replacement), `next_epoch` becomes `wall_epoch + 1` (in `u64`
arithmetic, i.e. modulo `2 ^ 64`), and `next_features` becomes
all-empty. -/
theorem maybe_update_commits_rollover (s : StagedFeatures) (wall_epoch : Nat)
    (h : s.next_epoch ≤ wall_epoch) :
    maybe_update s wall_epoch =
      { current_epoch := s.next_epoch
        current_features := s.next_features
        next_epoch := (wall_epoch + 1) % U64_MOD
        next_features := List.replicate 8 pubkeyDefault } :=
  maybe_update_spec_le s wall_epoch h

/-- Witness for C1: the rollover at `genesis` with wall epoch 3. -/
theorem maybe_update_commits_rollover_witness :
    genesis.next_epoch ≤ 3 ∧
    maybe_update genesis 3 =
      { current_epoch := genesis.next_epoch
        current_features := genesis.next_features
        next_epoch := (3 + 1) % U64_MOD
        next_features := List.replicate 8 pubkeyDefault } :=
  ⟨by decide, maybe_update_commits_rollover genesis 3 (by decide)⟩

/-- C3: for every store state and every wall epoch strictly below
`next_epoch`, `maybe_update` leaves every field of the store
unchanged. -/
theorem maybe_update_noop_before_next_epoch (s : StagedFeatures)
    (wall_epoch : Nat) (h : wall_epoch < s.next_epoch) :
    maybe_update s wall_epoch = s :=
  maybe_update_spec_lt s wall_epoch h

/-- Witness for C3: wall epoch 0 at `genesis` is a no-op. -/
theorem maybe_update_noop_before_next_epoch_witness :
    0 < genesis.next_epoch ∧ maybe_update genesis 0 = genesis :=
  ⟨by decide, maybe_update_noop_before_next_epoch genesis 0 (by decide)⟩

/-- Counterexample to C4 as stated: at `wall_epoch = u64::MAX`
(`2 ^ 64 - 1`), the `u64` advance `wall_epoch + 1` wraps to `0`, so the
second `maybe_update` call rolls over again and the state after the
second call differs from the state after the first. -/
theorem maybe_update_not_idempotent_at_u64_max :
    maybe_update (maybe_update genesis (U64_MOD - 1)) (U64_MOD - 1) ≠
      maybe_update genesis (U64_MOD - 1) := by decide

/-- C4 (amended): for every store state and every wall epoch whose
successor does not wrap in `u64` (every value except `u64::MAX`), two
consecutive `maybe_update` calls with the same wall epoch yield the same
store after the second call as after the first. -/
theorem maybe_update_idempotent_below_u64_max (s : StagedFeatures)
    (wall_epoch : Nat) (h : wall_epoch + 1 < U64_MOD) :
    maybe_update (maybe_update s wall_epoch) wall_epoch =
      maybe_update s wall_epoch := by
  by_cases hc : s.next_epoch ≤ wall_epoch
  · rw [maybe_update_spec_le s wall_epoch hc]
    apply maybe_update_spec_lt
    show wall_epoch < (wall_epoch + 1) % U64_MOD
    rw [Nat.mod_eq_of_lt h]
    omega
  · have hlt : wall_epoch < s.next_epoch := by omega
    rw [maybe_update_spec_lt s wall_epoch hlt]
    exact maybe_update_spec_lt s wall_epoch hlt

/-- Witness for C4 (amended): two rollovers at `genesis` with wall
epoch 5. -/
theorem maybe_update_idempotent_below_u64_max_witness :
    5 + 1 < U64_MOD ∧
    maybe_update (maybe_update genesis 5) 5 = maybe_update genesis 5 :=
  ⟨by decide, maybe_update_idempotent_below_u64_max genesis 5 (by decide)⟩

/-- Counterexample to C5 as stated: the store reached from genesis by the
single call `maybe_update (2 ^ 64 - 1)` (a legal `u64` wall epoch) has
`next_epoch = 0` (wrapped) and `current_epoch = 1`, violating
`next_epoch > current_epoch`. -/
theorem next_epoch_invariant_fails_at_u64_max :
    Reachable (maybe_update genesis (U64_MOD - 1)) ∧
    ¬ (maybe_update genesis (U64_MOD - 1)).current_epoch <
        (maybe_update genesis (U64_MOD - 1)).next_epoch :=
  ⟨Reachable.step_update (U64_MOD - 1) Reachable.init (by decide), by decide⟩

/-- C5 (amended): in every store reachable from genesis by
`maybe_update`, `stage_feature` and `signal_support` calls whose epoch
arguments stay strictly below `u64::MAX` (so the `next_epoch` advance
never wraps), `next_epoch` is strictly greater than `current_epoch`. -/
theorem next_epoch_gt_current_of_reachable (s : StagedFeatures)
    (h : ReachableB s) : s.current_epoch < s.next_epoch := by
  induction h with
  | init => decide
  | step_update w hr hw ih => exact maybe_update_preserves_gap _ w hw ih
  | step_stage t id hr ih =>
    rename_i s0
    have hk := stage_feature_keeps_current s0 t id
    rw [hk.1, hk.2.2]
    exact ih
  | step_signal w b hr hw ih =>
    rename_i s0
    show (maybe_update s0 w).current_epoch < (maybe_update s0 w).next_epoch
    exact maybe_update_preserves_gap s0 w hw ih

/-- Witness for C5 (amended): the invariant after one rollover from
genesis. -/
theorem next_epoch_gt_current_of_reachable_witness :
    (maybe_update genesis 5).current_epoch < (maybe_update genesis 5).next_epoch :=
  next_epoch_gt_current_of_reachable (maybe_update genesis 5)
    (ReachableB.step_update 5 ReachableB.init (by decide))

/-- C2: `stage_feature` succeeds exactly when the target epoch equals the
store's `next_epoch` and some slot of `next_features` is empty; every
failing call returns the error the code specifies
(`ProgramError::InvalidArgument`) and leaves the store unchanged. -/
theorem stage_feature_success_iff (s : StagedFeatures) (t : Nat) (id : Pubkey) :
    ((stage_feature s t id).1 = Except.ok () ↔
      t = s.next_epoch ∧ hasEmpty s.next_features = true) ∧
    ∀ e, (stage_feature s t id).1 = Except.error e →
      e = ProgramError.InvalidArgument ∧ (stage_feature s t id).2 = s := by
  rcases stage_feature_eq s t id with ⟨ht, heq⟩ | ⟨ht, hfull, heq⟩ | ⟨ht, slots, hw, heq⟩
  · rw [heq]
    refine ⟨by simp [ht], ?_⟩
    intro e he
    exact ⟨(Except.error.inj he).symm, rfl⟩
  · rw [heq]
    refine ⟨by simp [ht, hfull], ?_⟩
    intro e he
    exact ⟨(Except.error.inj he).symm, rfl⟩
  · rw [heq]
    refine ⟨by simp [ht, hasEmpty_of_writeFirstEmpty_some _ _ _ hw], ?_⟩
    intro e he
    exact Except.noConfusion he

/-- Witness for C2: staging for epoch 2 at `genesis` (whose `next_epoch`
is 1) fails with `InvalidArgument` and leaves the store unchanged. -/
theorem stage_feature_success_iff_witness :
    ProgramError.InvalidArgument = ProgramError.InvalidArgument ∧
    (stage_feature genesis 2 pk1).2 = genesis :=
  (stage_feature_success_iff genesis 2 pk1).2 ProgramError.InvalidArgument rfl

/-- Counterexample to C6 as stated: the invalid-target-epoch failure
(target 2 against `next_epoch = 1`) and the store-full failure (target 1
against a full next generation) return the very same error value, so the
two error kinds are not distinct or distinguishable by the caller. -/
theorem stage_feature_errors_not_distinct :
    (stage_feature fullStore 2 pk2).1 = (stage_feature fullStore 1 pk2).1 ∧
    (stage_feature fullStore 2 pk2).1 = Except.error ProgramError.InvalidArgument ∧
    (2 ≠ fullStore.next_epoch) ∧
    (1 = fullStore.next_epoch ∧ hasEmpty fullStore.next_features = false) := by
  decide

/-- C6 (amended): `stage_feature` has exactly two failure conditions —
target epoch different from `next_epoch`, and no empty slot remaining —
but both return the single error value `ProgramError::InvalidArgument`,
so the caller cannot distinguish them from the returned error. -/
theorem stage_feature_single_error_value (s : StagedFeatures) (t : Nat) (id : Pubkey) :
    (t ≠ s.next_epoch →
      (stage_feature s t id).1 = Except.error ProgramError.InvalidArgument) ∧
    (hasEmpty s.next_features = false →
      (stage_feature s t id).1 = Except.error ProgramError.InvalidArgument) := by
  constructor
  · intro ht
    simp [stage_feature, ht]
  · intro hfull
    by_cases ht : t = s.next_epoch
    · have hw : writeFirstEmpty s.next_features id = none :=
        (writeFirstEmpty_none_iff _ _).mpr hfull
      simp [stage_feature, ht, hw]
    · simp [stage_feature, ht]

/-- Witness for C6 (amended): the wrong-epoch failure at `genesis`. -/
theorem stage_feature_single_error_value_witness :
    (2 ≠ genesis.next_epoch) ∧
    (stage_feature genesis 2 pk1).1 = Except.error ProgramError.InvalidArgument :=
  ⟨by decide, (stage_feature_single_error_value genesis 2 pk1).1 (by decide)⟩
example : (stage_feature genesis 1 pk1).1 = Except.ok () := by decide
example : (stage_feature genesis 2 pk1).1 = Except.error ProgramError.InvalidArgument := by decide
example :
    (stage_feature genesis 1 pk1).2.next_features =
      pk1 :: List.replicate 7 pubkeyDefault := by decide
example : maybe_update genesis 3 =
    { current_epoch := 1
      current_features := List.replicate 8 pubkeyDefault
      next_epoch := 4
      next_features := List.replicate 8 pubkeyDefault } := by decide

/-- C7: from a store whose next generation is all-empty, 8 `stage_feature`
calls against the store's own (unchanged) `next_epoch` with non-sentinel
identifiers all succeed, leave `next_epoch` unchanged and the next
generation with no empty slot, and a 9th call for that same epoch fails
(the store-full failure) for every feature identifier. -/
theorem stage_feature_capacity (s : StagedFeatures) (ids : List Pubkey)
    (hlen : ids.length = 8) (hids : ∀ id ∈ ids, id ≠ pubkeyDefault)
    (hempty : s.next_features = List.replicate 8 pubkeyDefault) :
    (stageMany s s.next_epoch ids).1 = true ∧
    (stageMany s s.next_epoch ids).2.next_epoch = s.next_epoch ∧
    hasEmpty (stageMany s s.next_epoch ids).2.next_features = false ∧
    ∀ id9 : Pubkey,
      (stage_feature (stageMany s s.next_epoch ids).2 s.next_epoch id9).1 =
        Except.error ProgramError.InvalidArgument := by
  have hc : countEmpty s.next_features = 8 := by rw [hempty]; decide
  have h := stageMany_success ids s hids (by omega)
  have hz : countEmpty (stageMany s s.next_epoch ids).2.next_features = 0 := by
    have := h.2.2
    omega
  have hfull : hasEmpty (stageMany s s.next_epoch ids).2.next_features = false :=
    hasEmpty_eq_false_of_countEmpty_zero _ hz
  refine ⟨h.1, h.2.1, hfull, ?_⟩
  intro id9
  have hw : writeFirstEmpty (stageMany s s.next_epoch ids).2.next_features id9 = none :=
    (writeFirstEmpty_none_iff _ _).mpr hfull
  simp [stage_feature, h.2.1, hw]

/-- Witness for C7: filling `genesis` with 8 copies of a non-sentinel
identifier, then failing on the 9th call. -/
theorem stage_feature_capacity_witness :
    (stageMany genesis genesis.next_epoch (List.replicate 8 pk1)).1 = true ∧
    (stage_feature (stageMany genesis genesis.next_epoch (List.replicate 8 pk1)).2
        genesis.next_epoch pk2).1 = Except.error ProgramError.InvalidArgument :=
  ⟨(stage_feature_capacity genesis (List.replicate 8 pk1) rfl
      (by intro id hid; rw [List.eq_of_mem_replicate hid]; decide) rfl).1,
    (stage_feature_capacity genesis (List.replicate 8 pk1) rfl
      (by intro id hid; rw [List.eq_of_mem_replicate hid]; decide) rfl).2.2.2 pk2⟩

/-- C8: every successful `stage_feature` call writes the identifier into
the first slot of `next_features` (in slot order) holding the empty
sentinel, leaves every other slot of `next_features` unchanged, and
leaves `current_epoch`, `current_features` and `next_epoch` unchanged. -/
theorem stage_feature_success_frame (s : StagedFeatures) (t : Nat) (id : Pubkey)
    (h : (stage_feature s t id).1 = Except.ok ()) :
    (stage_feature s t id).2.current_epoch = s.current_epoch ∧
    (stage_feature s t id).2.current_features = s.current_features ∧
    (stage_feature s t id).2.next_epoch = s.next_epoch ∧
    ∃ i, i < s.next_features.length ∧
      s.next_features[i]? = some pubkeyDefault ∧
      (∀ j, j < i → s.next_features[j]? ≠ some pubkeyDefault) ∧
      (stage_feature s t id).2.next_features = s.next_features.set i id ∧
      ∀ j, j ≠ i → ((stage_feature s t id).2.next_features)[j]? = s.next_features[j]? := by
  rcases stage_feature_eq s t id with ⟨ht, heq⟩ | ⟨ht, hfull, heq⟩ | ⟨ht, slots, hw, heq⟩
  · rw [heq] at h
    exact Except.noConfusion h
  · rw [heq] at h
    exact Except.noConfusion h
  · rw [heq]
    rcases writeFirstEmpty_spec _ _ _ hw with ⟨i, hi, hget, hbefore, hset⟩
    refine ⟨rfl, rfl, rfl, i, hi, hget, hbefore, hset, ?_⟩
    intro j hj
    show slots[j]? = s.next_features[j]?
    rw [hset]
    exact List.getElem?_set_ne (fun hij => hj hij.symm)

/-- Witness for C8: staging `pk1` for epoch 1 at `genesis` writes slot 0. -/
theorem stage_feature_success_frame_witness :
    (stage_feature genesis 1 pk1).1 = Except.ok () ∧
    ((stage_feature genesis 1 pk1).2.current_epoch = genesis.current_epoch ∧
      (stage_feature genesis 1 pk1).2.current_features = genesis.current_features ∧
      (stage_feature genesis 1 pk1).2.next_epoch = genesis.next_epoch ∧
      ∃ i, i < genesis.next_features.length ∧
        genesis.next_features[i]? = some pubkeyDefault ∧
        (∀ j, j < i → genesis.next_features[j]? ≠ some pubkeyDefault) ∧
        (stage_feature genesis 1 pk1).2.next_features = genesis.next_features.set i pk1 ∧
        ∀ j, j ≠ i →
          ((stage_feature genesis 1 pk1).2.next_features)[j]? = genesis.next_features[j]?) :=
  ⟨rfl, stage_feature_success_frame genesis 1 pk1 rfl⟩

/-- C9: for every context and every bitmask, the signal-support
instruction succeeds and its only effect is the rollover `maybe_update`
with the clock epoch; the resulting state does not depend on the
bitmask. -/
theorem signal_support_is_rollover (ctx : SimulatedProgramContext)
    (bitmask : Nat) :
    simulate_signal_support_instruction ctx bitmask =
      (Except.ok (),
        { clock_sysvar_epoch := ctx.clock_sysvar_epoch
          staged_features_pda :=
            maybe_update ctx.staged_features_pda ctx.clock_sysvar_epoch }) := rfl

/-- C10: staging the all-zero sentinel itself for the correct target
epoch while an empty slot remains succeeds yet leaves the store entirely
unchanged, so any number of such calls succeeds against the same
`next_epoch` without consuming capacity. -/
theorem stage_feature_sentinel_noop (s : StagedFeatures)
    (h : hasEmpty s.next_features = true) :
    stage_feature s s.next_epoch pubkeyDefault = (Except.ok (), s) ∧
    ∀ n : Nat, stageMany s s.next_epoch (List.replicate n pubkeyDefault) = (true, s) := by
  have hone : stage_feature s s.next_epoch pubkeyDefault = (Except.ok (), s) := by
    have hw := writeFirstEmpty_sentinel s.next_features h
    simp [stage_feature, hw]
  refine ⟨hone, ?_⟩
  intro n
  induction n with
  | zero => rfl
  | succ n ih =>
    rw [List.replicate_succ]
    simp only [stageMany, hone]
    exact ih

/-- Witness for C10: staging the sentinel three times at `genesis`. -/
theorem stage_feature_sentinel_noop_witness :
    hasEmpty genesis.next_features = true ∧
    stage_feature genesis genesis.next_epoch pubkeyDefault = (Except.ok (), genesis) ∧
    stageMany genesis genesis.next_epoch (List.replicate 3 pubkeyDefault) = (true, genesis) :=
  ⟨by decide, (stage_feature_sentinel_noop genesis (by decide)).1,
    (stage_feature_sentinel_noop genesis (by decide)).2 3⟩
